import Mathlib

/-!
Verification of the Shark-bus joystick emulator sketch (src/unnamed/part_001)
against its natural-language specification.

The sketch is an Arduino program that emulates the "Shark Remote" (SR) side of
the Shark Bus protocol.  It is transmit-only: it never reads a byte from the
serial port.  `sharkStartup` sends one fixed power-up packet (plus the
Transmit-Finished byte) when the on/off input turns the device on, and
`sharkOnMode` builds and sends one "general information" packet per loop cycle
from the two RC pulse inputs.

All machine integers are embedded as `Nat`/`Int` with explicit `% 2^w`
reductions where the C code relies on wrap-around (`byte` accumulation in the
checksum loops, `long` → `word` conversions).  Arduino's `map` uses C `long`
arithmetic whose division truncates toward zero, embedded via `Int.tdiv`.
-/

set_option maxHeartbeats 1000000
set_option maxRecDepth 100000

namespace Shark

/-- Arduino `constrain(amt, low, high)`:
`((amt)<(low)?(low):((amt)>(high)?(high):(amt)))`. -/
def constrain (x lo hi : Nat) : Nat :=
  if x < lo then lo else if hi < x then hi else x

/-- Arduino `map(x, in_min, in_max, out_min, out_max)` =
`(x - in_min) * (out_max - out_min) / (in_max - in_min) + out_min`,
computed on C `long` (division truncates toward zero, hence `Int.tdiv`). -/
def arduinoMap (x inMin inMax outMin outMax : Int) : Int :=
  Int.tdiv ((x - inMin) * (outMax - outMin)) (inMax - inMin) + outMin

/-- Conversion of a C `long` value to a `word` (`uint16`): reduction mod 2^16
(C unsigned conversion semantics; `Int.emod` returns the nonnegative residue). -/
def toWord (i : Int) : Nat :=
  (i % 65536).toNat

/-- The checksum accumulation loop shared by both packet builders:
`byte sum = 0; for (i...) sum += data[i] & 0x7f;` — an 8-bit (`byte`)
accumulator, so every addition wraps mod 256. -/
def byteSumMasked (l : List Nat) : Nat :=
  l.foldl (fun s b => (s + (b &&& 0x7f)) % 256) 0

/-! ### sharkStartup (power-up packet) -/

/-- The nine fixed bytes `data[0] .. data[8]` assigned in `sharkStartup`
(start byte `0x74` followed by eight data bytes). -/
def startupDataBytes : List Nat :=
  [0x74, 130, 133, 130, 128, 136, 205, 160, 128]

/-- `data[9] = 0x7f - sum` in `sharkStartup`: `byte` subtraction, so it wraps
mod 256 (`0x7f - sum` = `(127 + 256 - sum) % 256` for `sum < 256`). -/
def startupChecksum : Nat :=
  (383 - byteSumMasked startupDataBytes) % 256

/-- The 11 bytes written by `sharkStartup`: the 9 packet bytes, the checksum
`data[9]`, and the Transmit-Finished byte `data[10] = 15`. -/
def sharkStartupPacket : List Nat :=
  startupDataBytes ++ [startupChecksum, 15]

/-! ### sharkOnMode: pulse-input processing (constrain / map / deadband) -/

/-- `Deadband` global. -/
def Deadband : Nat := 20

/-- Direction pot processing in `sharkOnMode`:
`pulseIn` result truncated to `word`, then
`constrain(v, 1100, 1900)` and `map(v, 1000, 2000, 1, 1023)`,
the result again stored into a `word`. -/
def directionPotValMapped (pulse : Nat) : Nat :=
  toWord (arduinoMap (constrain (pulse % 65536) 1100 1900 : Nat) 1000 2000 1 1023)

/-- Speed pot processing in `sharkOnMode`:
`constrain(v, 1000, 2000)` then reversed `map(v, 1000, 2000, 1023, 1)`. -/
def speedPotValMapped (pulse : Nat) : Nat :=
  toWord (arduinoMap (constrain (pulse % 65536) 1000 2000 : Nat) 1000 2000 1023 1)

/-- Woody's deadband code, duplicated verbatim in the source for both axes:
above `512 + Deadband` map `(512+Deadband)..1024 → 513..1023`, below
`512 - Deadband` map `0..(512-Deadband) → 1..511`, otherwise exactly `512`.
Results are stored into `word` variables. -/
def applyDeadband (m : Nat) : Nat :=
  if 512 + Deadband < m then toWord (arduinoMap m (512 + Deadband) 1024 513 1023)
  else if m < 512 - Deadband then toWord (arduinoMap m 0 (512 - Deadband) 1 511)
  else 512

/-- The `direction` value placed in the general packet, as a function of the
direction pulse width. -/
def directionOf (pulse : Nat) : Nat :=
  applyDeadband (directionPotValMapped pulse)

/-- The `speed` value placed in the general packet, as a function of the speed
pulse width. -/
def speedOf (pulse : Nat) : Nat :=
  applyDeadband (speedPotValMapped pulse)

/-! ### sharkOnMode: general-packet construction -/

/-- `maxSpeed = 255` — fixed full-speed value in the sketch. -/
def maxSpeed : Nat := 255

/-- `data[1] = 0x80 | ((speed >> 3) & 0x7f)` — joystick speed, 7 MSbs. -/
def speedMsbByte (speed : Nat) : Nat :=
  0x80 ||| ((speed >>> 3) &&& 0x7f)

/-- `data[2] = 0x80 | ((direction >> 3) & 0x7f)` — joystick direction, 7 MSbs. -/
def directionMsbByte (direction : Nat) : Nat :=
  0x80 ||| ((direction >>> 3) &&& 0x7f)

/-- `data[3] = 0x80 | ((maxSpeed >> 1) & 0x7f)` — speed pot, 7 MSbs. -/
def potMsbByte (pot : Nat) : Nat :=
  0x80 ||| ((pot >>> 1) &&& 0x7f)

/-- `data[4] = 0x80 | ((maxSpeed & 0x1) << 6) | ((speed & 0x7) << 3) | (direction & 0x7)`:
bit 6 = speed-pot LSb, bits 5-3 = speed LSbs, bits 2-0 = direction LSbs. -/
def lsbByte (pot speed direction : Nat) : Nat :=
  0x80 ||| (((pot &&& 0x1) <<< 6) ||| ((speed &&& 0x7) <<< 3) ||| (direction &&& 0x7))

/-- `data[0] .. data[7]` of the general packet built in `sharkOnMode`:
start byte `0x60`, the four joystick/speed-pot bytes, then the fixed status
bytes `data[5] = 128` (switch byte, horn off), `data[6] = 132` (request byte,
only the Programmer-Comms flow-control bit set), `data[7] = 128`
(mode byte, Drive). -/
def generalDataBytes (speed direction : Nat) : List Nat :=
  [0x60,
   speedMsbByte speed,
   directionMsbByte direction,
   potMsbByte maxSpeed,
   lsbByte maxSpeed speed direction,
   128,
   132,
   128]

/-- `data[8] = (255 - (sum & 127))` — the general-packet checksum byte
(`sum` is the wrapping byte sum of `data[0] & 0x7f .. data[7] & 0x7f`). -/
def generalChecksum (speed direction : Nat) : Nat :=
  255 - (byteSumMasked (generalDataBytes speed direction) &&& 127)

/-- The 10 bytes written by `sharkOnMode`: `data[0..7]`, the checksum
`data[8]`, and the Transmit-Finished byte `data[9] = 15`. -/
def sharkOnModePacket (speed direction : Nat) : List Nat :=
  generalDataBytes speed direction ++ [generalChecksum speed direction, 15]

/-! ### The main loop -/

/-- The inputs the sketch reads during one `loop()` iteration: the three
`pulseIn` readings and the bytes present on the RS-485 receive line during the
cycle.  The sketch never calls `sharkSerial.read()`, so `rx` is never
consulted by `loopCycle`; it is carried in the model so that claims about the
program's (absent) reaction to received packets can be stated. -/
structure CycleInput where
  onOffVal : Nat
  directionPulse : Nat
  speedPulse : Nat
  rx : List Nat
  deriving Repr, DecidableEq

/-- One iteration of `loop()`, from the current `onOffState` and the cycle's
inputs to the next `onOffState` and the list of bytes transmitted this cycle.
Branch structure as in the source: turn-off when `onOffVal < 1000` while on;
turn-on (running `sharkStartup`) when `onOffVal > 1500` while off; RC failsafe
forcing off when `onOffVal < 500`; finally `sharkOnMode` runs whenever the
state is on at the end of the chain. -/
def loopCycle (st : Bool) (i : CycleInput) : Bool × List Nat :=
  let v := i.onOffVal % 65536
  let stsent :=
    if v < 1000 ∧ st then (false, ([] : List Nat))
    else if 1500 < v ∧ st = false then (true, sharkStartupPacket)
    else if v < 500 then (false, [])
    else (st, [])
  if stsent.1 then
    (stsent.1,
     stsent.2 ++ sharkOnModePacket (speedOf i.speedPulse) (directionOf i.directionPulse))
  else stsent

/-- The per-cycle transmissions of the sketch over a list of cycle inputs,
starting from a given `onOffState` (`false` after `setup()`). -/
def runRemote (st : Bool) : List CycleInput → List (List Nat)
  | [] => []
  | i :: rest => (loopCycle st i).2 :: runRemote (loopCycle st i).1 rest

/-! ### Specification-side definitions, for comparison with the code -/

/-- Checksum formula exactly as the specification words it:
`0x7F - (least-significant 7 bits of (start byte + sum of all data bytes))`.
This is the spec's text, to be compared against the checksum bytes the code
actually appends. -/
def checksumSpecFormula (start : Nat) (dat : List Nat) : Nat :=
  0x7f - ((start + dat.sum) % 128)

/-! ### Modelled packet codec (PacketCodec)

The generic encoder/decoder described in the specification (§4.1) is not
implemented in the sources: the sketch only hard-codes its two packets.  The
following two definitions are therefore modelled from the spec. -/

/-- Result of decoding a byte sequence. -/
inductive DecodeResult where
  | ok (ty : Nat) (dat : List Nat)
  | transmitFinished
  | incomplete
  | notStart
  | corrupt
  deriving Repr, DecidableEq

/-- Modelled from the spec: `PacketCodec.Encode` (absent from src/; the sketch
builds only its two fixed packets).  Builds a start byte whose low 4 bits hold
the type and whose bits 6-4 hold `len(data) - 1`; sets bit 7 (the framing
marker) on every byte except the start byte; appends the checksum
`0x7F - low7bits(start + sum of wire data bytes)`, itself carried with bit 7
set; fails if the data length is not in `1..8`.  Data bytes are the 7-bit
information values carried on the bus (each transmitted byte carries 7 bits of
information). -/
def encode (ty : Nat) (dat : List Nat) : Option (List Nat) :=
  if 1 ≤ dat.length ∧ dat.length ≤ 8 then
    some ((((dat.length - 1) <<< 4) ||| (ty &&& 0xF)) ::
          (dat.map fun b => 0x80 ||| (b &&& 0x7f)) ++
          [0x80 ||| (0x7f - (((((dat.length - 1) <<< 4) ||| (ty &&& 0xF)) +
                              (dat.map fun b => 0x80 ||| (b &&& 0x7f)).sum) % 128))])
  else none

/-- Modelled from the spec: `PacketCodec.Decode` (absent from src/).  The
Transmit-Finished byte `0x0F` is detected before generic decode is attempted;
a byte with bit 7 set cannot start a packet; the type and declared length are
read from the start byte; with fewer data-plus-checksum bytes than declared
the result is `incomplete`; otherwise the checksum is recomputed over the
declared-length slice and compared (on the 7 information bits); on success the
packet's type and 7-bit data values are returned. -/
def decode : List Nat → DecodeResult
  | [] => .incomplete
  | b0 :: rest =>
    if b0 = 0x0F then .transmitFinished
    else if b0.testBit 7 then .notStart
    else
      let len := ((b0 >>> 4) &&& 0x7) + 1
      if rest.length < len + 1 then .incomplete
      else if (rest[len]?).getD 0 &&& 0x7f
              = 0x7f - ((b0 + (rest.take len).sum) % 128) then
        .ok (b0 &&& 0xF) ((rest.take len).map fun b => b &&& 0x7f)
      else .corrupt

/-! ### Recombination of the split MSB/LSB fields (claim-side decoders) -/

/-- Recombines the joystick-speed reading from its MSB byte (7 MSbs) and the
LSb byte (bits 5-3), as the claim describes. -/
def recombineSpeed (msb lsb : Nat) : Nat :=
  ((msb &&& 0x7f) <<< 3) ||| ((lsb >>> 3) &&& 0x7)

/-- Recombines the joystick-direction reading from its MSB byte and the LSb
byte (bits 2-0). -/
def recombineDirection (msb lsb : Nat) : Nat :=
  ((msb &&& 0x7f) <<< 3) ||| (lsb &&& 0x7)

/-- Recombines the speed-pot reading from its MSB byte (7 MSbs) and the LSb
byte (bit 6). -/
def recombinePot (msb lsb : Nat) : Nat :=
  ((msb &&& 0x7f) <<< 1) ||| ((lsb >>> 6) &&& 0x1)

/-! ### The power module's "power down now" flag -/

/-- Modelled from the spec: recognition of the "power down now" flag in a
received SPM General Information packet (packet type `01`; its data byte 1,
bit 4, is "Power down now").  On the wire, data byte 1 is the packet's third
byte and carries the framing bit 7.  The sketch contains no receive path, so
no recogniser exists in src/. -/
def spmPowerDownNowFlag (bytes : List Nat) : Bool :=
  match bytes with
  | [] => false
  | b0 :: _ => !b0.testBit 7 && (b0 &&& 0xF == 1) && ((bytes[2]?).getD 0).testBit 4

/-- A concrete, correctly-checksummed SPM General Information packet (type
`01`, minimum 7 data bytes) whose "power down now" bit is set (data byte 1 =
`0x10`, wire value `0x90` = 144), followed by the Transmit-Finished byte:
start `0x61`, low-7 sum `0x61 + 0x10 = 113`, checksum value `127 - 113 = 14`,
wire checksum `0x80 | 14 = 142`. -/
def spmPowerDownPacketExample : List Nat :=
  [0x61, 128, 144, 128, 128, 128, 128, 128, 142, 15]

/-! ## Helper lemmas on byte arithmetic -/

theorem and127_eq_mod (x : Nat) : x &&& 127 = x % 128 := by
  have h := Nat.and_pow_two_sub_one_eq_mod x 7
  norm_num at h
  exact h

theorem and15_eq_mod (x : Nat) : x &&& 15 = x % 16 := by
  have h := Nat.and_pow_two_sub_one_eq_mod x 4
  norm_num at h
  exact h

theorem and7_eq_mod (x : Nat) : x &&& 7 = x % 8 := by
  have h := Nat.and_pow_two_sub_one_eq_mod x 3
  norm_num at h
  exact h

theorem and1_eq_mod (x : Nat) : x &&& 1 = x % 2 := by
  simp [Nat.and_one_is_mod]

theorem or128_eq_add : ∀ a < 128, 128 ||| a = 128 + a := by decide

theorem testBit7_or128 (a : Nat) : (128 ||| a).testBit 7 = true := by
  rw [Nat.testBit_or]
  have h : (128 : Nat).testBit 7 = true := by decide
  rw [h, Bool.true_or]

theorem testBit7_of_between : ∀ y < 256, 128 ≤ y → y.testBit 7 = true := by decide

/-- The wrapping byte accumulation of `byteSumMasked`, reduced mod 128, agrees
with the plain sum of the bytes mod 128 (masking each byte to 7 bits and
wrapping at 256 both preserve the low 7 bits of the sum). -/
theorem foldl_byteSum_mod (l : List Nat) :
    ∀ a, (l.foldl (fun s b => (s + (b &&& 0x7f)) % 256) a) % 128 = (a + l.sum) % 128 := by
  induction l with
  | nil => intro a; simp
  | cons b t ih =>
    intro a
    rw [List.foldl_cons, ih, and127_eq_mod, List.sum_cons]
    omega

theorem byteSumMasked_mod (l : List Nat) : byteSumMasked l % 128 = l.sum % 128 := by
  have h := foldl_byteSum_mod l 0
  simpa [byteSumMasked] using h

theorem start_byte_facts :
    ∀ L < 8, ∀ t < 16,
      (((L <<< 4) ||| t) &&& 15 = t) ∧ ((((L <<< 4) ||| t) >>> 4) &&& 7 = L) ∧
      (((L <<< 4) ||| t).testBit 7 = false) ∧ (((L <<< 4) ||| t) = 15 ↔ L = 0 ∧ t = 15) := by
  decide

theorem chk_unmask : ∀ v < 128, (128 ||| v) &&& 127 = v := by decide

theorem wire_byte_unmask : ∀ b ≤ 127, (128 ||| (b &&& 127)) &&& 127 = b := by decide

theorem take_append_single {α : Type} (l : List α) (x : α) :
    (l ++ [x]).take l.length = l :=
  List.take_left l [x]

theorem getElem_append_single {α : Type} (l : List α) (x : α) :
    (l ++ [x])[l.length]? = some x := by
  rw [List.getElem?_append_right (le_refl _)]
  simp

theorem decode_cons (b0 : Nat) (rest : List Nat) :
    decode (b0 :: rest)
      = if b0 = 0x0F then DecodeResult.transmitFinished
        else if b0.testBit 7 then DecodeResult.notStart
        else if rest.length < ((b0 >>> 4) &&& 0x7) + 1 + 1 then DecodeResult.incomplete
        else if (rest[((b0 >>> 4) &&& 0x7) + 1]?).getD 0 &&& 0x7f
                = 0x7f - ((b0 + (rest.take (((b0 >>> 4) &&& 0x7) + 1)).sum) % 128) then
          DecodeResult.ok (b0 &&& 0xF)
            ((rest.take (((b0 >>> 4) &&& 0x7) + 1)).map fun b => b &&& 0x7f)
        else DecodeResult.corrupt := rfl

theorem inner_or_eq :
    ∀ u < 2, ∀ r < 8, ∀ f < 8, ((u <<< 6) ||| (r <<< 3)) ||| f = u * 64 + r * 8 + f := by
  decide

theorem or_mul8 : ∀ q < 128, ∀ r < 8, q * 8 ||| r = q * 8 + r := by decide

theorem or_mul2 : ∀ q < 128, ∀ u < 2, q * 2 ||| u = q * 2 + u := by decide

/-! ## Claim theorems -/

/-- Claim C1 (amended): the checksum byte the program appends is the
framing-marked form of the spec's value: it equals
`0x80 + (0x7F - low7bits(start byte + sum of all data bytes))`, i.e. its low
7 bits are exactly `0x7F - low7bits(start + sum(data))` and its bit 7 (the
framing marker carried by every non-start byte) is set.  This holds for the
general packet at every input and for the fixed power-up packet. -/
theorem checksum_low7_matches_spec_formula :
    (∀ s d, generalChecksum s d
      = 0x80 + checksumSpecFormula 0x60 ((generalDataBytes s d).drop 1)) ∧
    startupChecksum = 0x80 + checksumSpecFormula 0x74 (startupDataBytes.drop 1) := by
  constructor
  · intro s d
    have hm := byteSumMasked_mod (generalDataBytes s d)
    have hsum : (generalDataBytes s d).sum
        = 0x60 + ((generalDataBytes s d).drop 1).sum := by
      simp [generalDataBytes]
    simp only [generalChecksum, checksumSpecFormula, and127_eq_mod]
    omega
  · decide

/-- Claim C1 (counterexample): the checksum byte is not literally
`0x7F - low7bits(start + sum(data))`: for the power-up packet the program
appends 141 (= `0x80 + 13`) while the claim's formula yields 13. -/
theorem checksum_byte_is_not_spec_formula :
    startupChecksum = 141 ∧
    checksumSpecFormula 0x74 (startupDataBytes.drop 1) = 13 ∧
    startupChecksum ≠ checksumSpecFormula 0x74 (startupDataBytes.drop 1) := by
  decide

/-- Claim C2: each transmitted packet's start byte has bit 7 clear, carries the
packet type in its low 4 bits and the data-byte count minus one in bits 6-4:
the general packet starts with `0x60` (type 0, length field 6, so 7 data
bytes; packet length 10 = start + 7 data + checksum + TransmitFinished) and
the power-up packet starts with `0x74` (type 4, length field 7, so 8 data
bytes; packet length 11). -/
theorem start_byte_encodes_type_and_length :
    (∀ s d, (sharkOnModePacket s d).get? 0 = some 0x60
      ∧ (sharkOnModePacket s d).length = 10) ∧
    (0x60 : Nat).testBit 7 = false ∧ (0x60 : Nat) &&& 0xF = 0 ∧
    ((0x60 : Nat) >>> 4) &&& 0x7 = 7 - 1 ∧
    sharkStartupPacket.get? 0 = some 0x74 ∧ sharkStartupPacket.length = 11 ∧
    (0x74 : Nat).testBit 7 = false ∧ (0x74 : Nat) &&& 0xF = 4 ∧
    ((0x74 : Nat) >>> 4) &&& 0x7 = 8 - 1 := by
  exact ⟨fun s d => ⟨rfl, rfl⟩, by decide⟩

/-- Claim C3: in both transmitted packets, every byte after the start byte —
the data bytes and the checksum byte — has bit 7 set, for every possible
joystick/speed-pot input (general packet: bytes 1-8 of 10; power-up packet:
bytes 1-9 of 11; the trailing Transmit-Finished byte is a separate single-byte
packet). -/
theorem nonstart_bytes_have_bit7_set :
    (∀ s d, (((sharkOnModePacket s d).drop 1).take 8).all (fun b => b.testBit 7) = true) ∧
    ((sharkStartupPacket.drop 1).take 9).all (fun b => b.testBit 7) = true := by
  constructor
  · intro s d
    have hle : byteSumMasked (generalDataBytes s d) &&& 127 ≤ 127 := Nat.and_le_right
    have h8 : (generalChecksum s d).testBit 7 = true := by
      refine testBit7_of_between _ ?_ ?_ <;> simp only [generalChecksum] <;> omega
    have c128 : (128 : Nat).testBit 7 = true := by decide
    have c132 : (132 : Nat).testBit 7 = true := by decide
    simp [sharkOnModePacket, generalDataBytes, speedMsbByte, directionMsbByte,
      potMsbByte, lsbByte, testBit7_or128, h8, c128, c132]
  · decide

/-- Claim C6: every transmission turn ends with the Transmit-Finished marker,
the single fixed byte `0x0F` (15), sent last, directly after the packet's
checksum byte (general packet: checksum at index 8, marker at index 9;
power-up packet: checksum at index 9, marker at index 10). -/
theorem transmissions_end_with_transmit_finished :
    (∀ s d, (sharkOnModePacket s d).getLast? = some 15
      ∧ (sharkOnModePacket s d).get? 9 = some 15
      ∧ (sharkOnModePacket s d).get? 8 = some (generalChecksum s d)
      ∧ (sharkOnModePacket s d).length = 10) ∧
    sharkStartupPacket.getLast? = some 15 ∧
    sharkStartupPacket.get? 10 = some 15 ∧
    sharkStartupPacket.get? 9 = some startupChecksum ∧
    sharkStartupPacket.length = 11 ∧ (15 : Nat) = 0x0F := by
  exact ⟨fun s d => ⟨rfl, rfl, rfl, rfl⟩, rfl, rfl, rfl, rfl, rfl⟩

/-- Claim C10: in every general packet, the switch byte (`data[5]`), the
request byte (`data[6]`) and the mode byte (`data[7]`) are the constants 128,
132 and 128 regardless of input: every switch, fault, indicator,
remote-inhibit and power-down-confirm bit is 0, the Programmer-Comms
flow-control bit (bit 2 of `data[6]`) is 1, and the operating-mode nibble is
0 (Drive).  The start byte (index 0) and Transmit-Finished byte (index 9) are
likewise fixed, so only the joystick/speed-pot bytes and the checksum can vary
between cycles. -/
theorem general_packet_fixed_bytes :
    ∀ s d, (sharkOnModePacket s d).get? 5 = some 128
      ∧ (sharkOnModePacket s d).get? 6 = some 132
      ∧ (sharkOnModePacket s d).get? 7 = some 128
      ∧ (sharkOnModePacket s d).get? 0 = some 0x60
      ∧ (sharkOnModePacket s d).get? 9 = some 15
      ∧ (132 : Nat).testBit 0 = false ∧ (132 : Nat).testBit 1 = false
      ∧ (132 : Nat).testBit 2 = true ∧ (132 : Nat).testBit 3 = false
      ∧ (132 : Nat).testBit 4 = false ∧ (132 : Nat).testBit 5 = false
      ∧ (132 : Nat).testBit 6 = false
      ∧ (128 : Nat).testBit 0 = false ∧ (128 : Nat).testBit 1 = false
      ∧ (128 : Nat).testBit 2 = false ∧ (128 : Nat).testBit 3 = false
      ∧ (128 : Nat).testBit 4 = false ∧ (128 : Nat).testBit 5 = false
      ∧ (128 : Nat).testBit 6 = false ∧ (128 : Nat) &&& 0xF = 0 := by
  exact fun s d => ⟨rfl, rfl, rfl, rfl, rfl, by decide⟩

/-- Claim C8: the split MSB/LSB field encoding into general-packet data bytes
1-4 is lossless: for every 10-bit speed and direction value and every 8-bit
speed-pot value, recombining the 7 MSbs from the MSB bytes with the LSbs
packed in byte 4 (bit 6 = pot LSb, bits 5-3 = speed LSbs, bits 2-0 =
direction LSbs) recovers the original values exactly. -/
theorem msb_lsb_split_lossless :
    ∀ speed direction pot, speed ≤ 1023 → direction ≤ 1023 → pot ≤ 255 →
      recombineSpeed (speedMsbByte speed) (lsbByte pot speed direction) = speed ∧
      recombineDirection (directionMsbByte direction) (lsbByte pot speed direction) = direction ∧
      recombinePot (potMsbByte pot) (lsbByte pot speed direction) = pot := by
  intro s d p hs hd hp
  have h8 : (2 : Nat) ^ 3 = 8 := by norm_num
  have h2 : (2 : Nat) ^ 1 = 2 := by norm_num
  have h64 : (2 : Nat) ^ 6 = 64 := by norm_num
  have hX : lsbByte p s d = 128 + (p % 2 * 64 + s % 8 * 8 + d % 8) := by
    simp only [lsbByte, and1_eq_mod, and7_eq_mod]
    rw [inner_or_eq (p % 2) (by omega) (s % 8) (by omega) (d % 8) (by omega),
      or128_eq_add _ (by omega)]
  have hS : speedMsbByte s = 128 + s / 8 := by
    simp only [speedMsbByte, Nat.shiftRight_eq_div_pow, and127_eq_mod, h8]
    rw [Nat.mod_eq_of_lt (by omega), or128_eq_add _ (by omega)]
  have hD : directionMsbByte d = 128 + d / 8 := by
    simp only [directionMsbByte, Nat.shiftRight_eq_div_pow, and127_eq_mod, h8]
    rw [Nat.mod_eq_of_lt (by omega), or128_eq_add _ (by omega)]
  have hP : potMsbByte p = 128 + p / 2 := by
    simp only [potMsbByte, Nat.shiftRight_eq_div_pow, and127_eq_mod, h2]
    rw [Nat.mod_eq_of_lt (by omega), or128_eq_add _ (by omega)]
  refine ⟨?_, ?_, ?_⟩
  · rw [recombineSpeed, hS, hX]
    simp only [and127_eq_mod, and7_eq_mod, Nat.shiftLeft_eq, Nat.shiftRight_eq_div_pow, h8]
    have e1 : (128 + s / 8) % 128 = s / 8 := by omega
    have e2 : (128 + (p % 2 * 64 + s % 8 * 8 + d % 8)) / 8 % 8 = s % 8 := by omega
    rw [e1, e2, or_mul8 (s / 8) (by omega) (s % 8) (by omega)]
    omega
  · rw [recombineDirection, hD, hX]
    simp only [and127_eq_mod, and7_eq_mod, Nat.shiftLeft_eq, h8]
    have e1 : (128 + d / 8) % 128 = d / 8 := by omega
    have e2 : (128 + (p % 2 * 64 + s % 8 * 8 + d % 8)) % 8 = d % 8 := by omega
    rw [e1, e2, or_mul8 (d / 8) (by omega) (d % 8) (by omega)]
    omega
  · rw [recombinePot, hP, hX]
    simp only [and127_eq_mod, and1_eq_mod, Nat.shiftLeft_eq, Nat.shiftRight_eq_div_pow, h2, h64]
    have e1 : (128 + p / 2) % 128 = p / 2 := by omega
    have e2 : (128 + (p % 2 * 64 + s % 8 * 8 + d % 8)) / 64 % 2 = p % 2 := by omega
    rw [e1, e2, or_mul2 (p / 2) (by omega) (p % 2) (by omega)]
    omega

theorem constrain_bounds (x lo hi : Nat) (h : lo ≤ hi) :
    lo ≤ constrain x lo hi ∧ constrain x lo hi ≤ hi := by
  unfold constrain
  split_ifs <;> omega

theorem directionPotValMapped_bounds (p : Nat) :
    103 ≤ directionPotValMapped p ∧ directionPotValMapped p ≤ 920 := by
  unfold directionPotValMapped toWord arduinoMap
  set c := constrain (p % 65536) 1100 1900 with hc
  have hcb := constrain_bounds (p % 65536) 1100 1900 (by norm_num)
  rw [← hc] at hcb
  rw [Int.tdiv_eq_ediv (by omega) (by omega)]
  have h0 : (0 : Int) ≤ ((c : Int) - 1000) * (1023 - 1) / (2000 - 1000) + 1 := by omega
  have h9 : ((c : Int) - 1000) * (1023 - 1) / (2000 - 1000) + 1 < 65536 := by omega
  rw [Int.emod_eq_of_lt h0 h9]
  omega

theorem speedPotValMapped_bounds (p : Nat) :
    1 ≤ speedPotValMapped p ∧ speedPotValMapped p ≤ 1023 := by
  unfold speedPotValMapped toWord arduinoMap
  set c := constrain (p % 65536) 1000 2000 with hc
  have hcb := constrain_bounds (p % 65536) 1000 2000 (by norm_num)
  rw [← hc] at hcb
  have hneg : ((c : Int) - 1000) * (1 - 1023) = -(((c : Int) - 1000) * 1022) := by ring
  rw [hneg, Int.neg_tdiv, Int.tdiv_eq_ediv (by omega) (by omega)]
  have h0 : (0 : Int) ≤ -(((c : Int) - 1000) * 1022 / (2000 - 1000)) + 1023 := by omega
  have h9 : -(((c : Int) - 1000) * 1022 / (2000 - 1000)) + 1023 < 65536 := by omega
  rw [Int.emod_eq_of_lt h0 h9]
  omega

theorem applyDeadband_bounds (m : Nat) (hm : m ≤ 1023) :
    1 ≤ applyDeadband m ∧ applyDeadband m ≤ 1023 := by
  unfold applyDeadband Deadband toWord arduinoMap
  split_ifs with hgt hlt
  · rw [Int.tdiv_eq_ediv (by omega) (by omega)]
    have h0 : (0 : Int) ≤
        ((m : Int) - (512 + (20 : Nat))) * (1023 - 513) / (1024 - (512 + (20 : Nat))) + 513 := by
      omega
    have h9 :
        ((m : Int) - (512 + (20 : Nat))) * (1023 - 513) / (1024 - (512 + (20 : Nat))) + 513
          < 65536 := by
      omega
    rw [Int.emod_eq_of_lt h0 h9]
    omega
  · rw [Int.tdiv_eq_ediv (by omega) (by omega)]
    have h0 : (0 : Int) ≤ ((m : Int) - 0) * (511 - 1) / (512 - ((20 : Nat) : Int) - 0) + 1 := by
      omega
    have h9 : ((m : Int) - 0) * (511 - 1) / (512 - ((20 : Nat) : Int) - 0) + 1 < 65536 := by
      omega
    rw [Int.emod_eq_of_lt h0 h9]
    omega
  · omega

/-- Claim C9: for all pulse-width inputs, the processed 10-bit joystick speed
and direction values placed in the general packet lie in `1..1023` (never 0),
and any input whose mapped pot value lies within the 20-count deadband around
centre 512 (i.e. in `492..532`) yields exactly the neutral value 512 for that
axis. -/
theorem joystick_values_in_range_and_deadband :
    (∀ p, 1 ≤ directionOf p ∧ directionOf p ≤ 1023) ∧
    (∀ p, 1 ≤ speedOf p ∧ speedOf p ≤ 1023) ∧
    (∀ p, 492 ≤ directionPotValMapped p → directionPotValMapped p ≤ 532 →
      directionOf p = 512) ∧
    (∀ p, 492 ≤ speedPotValMapped p → speedPotValMapped p ≤ 532 → speedOf p = 512) := by
  have hdead : ∀ m, 492 ≤ m → m ≤ 532 → applyDeadband m = 512 := by
    intro m h1 h2
    unfold applyDeadband Deadband
    rw [if_neg (by omega), if_neg (by omega)]
  refine ⟨fun p => ?_, fun p => ?_,
    fun p h1 h2 => hdead _ h1 h2, fun p h1 h2 => hdead _ h1 h2⟩
  · exact applyDeadband_bounds _ (by have h := directionPotValMapped_bounds p; omega)
  · exact applyDeadband_bounds _ (by have h := speedPotValMapped_bounds p; omega)

/-- Witness for C9 at pulse width 1500 on both axes (mapped value 512, inside
the deadband). -/
theorem joystick_values_witness :
    (1 ≤ directionOf 1500 ∧ directionOf 1500 ≤ 1023) ∧
    (1 ≤ speedOf 1500 ∧ speedOf 1500 ≤ 1023) ∧
    directionOf 1500 = 512 ∧ speedOf 1500 = 512 :=
  ⟨joystick_values_in_range_and_deadband.1 1500,
   joystick_values_in_range_and_deadband.2.1 1500,
   joystick_values_in_range_and_deadband.2.2.1 1500 (by decide) (by decide),
   joystick_values_in_range_and_deadband.2.2.2 1500 (by decide) (by decide)⟩

/-- Witness for C8 at speed 700, direction 300, speed-pot 255. -/
theorem msb_lsb_split_lossless_witness :
    recombineSpeed (speedMsbByte 700) (lsbByte 255 700 300) = 700 ∧
    recombineDirection (directionMsbByte 300) (lsbByte 255 700 300) = 300 ∧
    recombinePot (potMsbByte 255) (lsbByte 255 700 300) = 255 :=
  msb_lsb_split_lossless 700 300 255 (by decide) (by decide) (by decide)

/-- While the device is already on, a cycle whose on/off pulse reads above
1500 transmits exactly the general packet, whatever bytes arrive on the bus
(the sketch never reads them). -/
theorem runRemote_on_sends_general (inputs : List CycleInput)
    (h : ∀ i ∈ inputs, 1500 < i.onOffVal % 65536) :
    runRemote true inputs
      = inputs.map
          (fun i => sharkOnModePacket (speedOf i.speedPulse) (directionOf i.directionPulse)) := by
  induction inputs with
  | nil => rfl
  | cons i rest ih =>
    have hi := h i (List.mem_cons_self i rest)
    have h1 : ¬ (i.onOffVal % 65536 < 1000) := by omega
    have h3 : ¬ (i.onOffVal % 65536 < 500) := by omega
    have hstep : loopCycle true i
        = (true, sharkOnModePacket (speedOf i.speedPulse) (directionOf i.directionPulse)) := by
      simp [loopCycle, h1, h3]
    simp only [runRemote, hstep, List.map_cons]
    exact congrArg _ (ih fun j hj => h j (List.mem_cons_of_mem i hj))

/-- Claim C5 (amended): the remote transmits its power-up packet (plus
TransmitFinished) exactly once, in the cycle where the on/off input switches
it on; every later cycle while it stays on transmits only the general packet,
regardless of what is received — the sketch has no receive path, so it never
waits for and never reacts to a power-up packet from the power module. -/
theorem powerup_sent_once_then_general (i0 : CycleInput) (rest : List CycleInput)
    (h0 : 1500 < i0.onOffVal % 65536)
    (h : ∀ i ∈ rest, 1500 < i.onOffVal % 65536) :
    runRemote false (i0 :: rest)
      = (sharkStartupPacket
          ++ sharkOnModePacket (speedOf i0.speedPulse) (directionOf i0.directionPulse))
        :: rest.map
            (fun i => sharkOnModePacket (speedOf i.speedPulse) (directionOf i.directionPulse)) := by
  have h1 : ¬ (i0.onOffVal % 65536 < 1000) := by omega
  have hstep : loopCycle false i0
      = (true, sharkStartupPacket
          ++ sharkOnModePacket (speedOf i0.speedPulse) (directionOf i0.directionPulse)) := by
    simp [loopCycle, h0, h1]
  simp only [runRemote, hstep]
  exact congrArg _ (runRemote_on_sends_general rest h)

/-- Witness for C5's amended theorem: a concrete two-cycle trace, switched on
in cycle 0. -/
theorem powerup_sent_once_then_general_witness :
    runRemote false [⟨2000, 1500, 1500, []⟩, ⟨1600, 1200, 1800, []⟩]
      = (sharkStartupPacket ++ sharkOnModePacket (speedOf 1500) (directionOf 1500))
        :: List.map
            (fun i : CycleInput =>
              sharkOnModePacket (speedOf i.speedPulse) (directionOf i.directionPulse))
            [⟨1600, 1200, 1800, []⟩] :=
  powerup_sent_once_then_general ⟨2000, 1500, 1500, []⟩ [⟨1600, 1200, 1800, []⟩]
    (by decide) (by decide)

/-- Claim C5 (counterexample): in the concrete trace where the device is
switched on at cycle 0 and nothing is ever received (every cycle's `rx` is
empty, so no correctly-checksummed power-up packet from the power module was
ever observed and the claim's "Handshaked" state was never reached), the
cycle-1 transmission is the general packet alone: it does not contain the
power-up packet — not even its start byte `0x74` (116) occurs in it.  This
refutes "transmits its power-up packet every cycle until it receives a
correctly-checksummed power-up packet from the power module". -/
theorem powerup_not_resent_without_handshake :
    (∀ i ∈ ([⟨2000, 1500, 1500, []⟩, ⟨2000, 1500, 1500, []⟩] : List CycleInput), i.rx = []) ∧
    (runRemote false [⟨2000, 1500, 1500, []⟩, ⟨2000, 1500, 1500, []⟩]).get? 1
      = some (sharkOnModePacket 512 512) ∧
    ¬ (116 ∈ sharkOnModePacket 512 512) ∧ (0x74 : Nat) = 116 := by
  exact ⟨by decide, by decide, by decide, rfl⟩

/-- Claim C7 (amended): the power-down/sleep confirm flag is never set: in
every general packet the program can transmit, the request byte (`data[6]`,
packet index 6) is 132 with bit 0 equal to 0; moreover a loop cycle's outcome
is entirely independent of the bytes received on the bus (the sketch never
reads the serial input), so observing the power module's "power down now"
flag cannot change any transmitted packet. -/
theorem confirm_flag_always_clear :
    (∀ s d, (sharkOnModePacket s d).get? 6 = some 132 ∧ (132 : Nat).testBit 0 = false) ∧
    (∀ st ov dp sp rx rx2,
      loopCycle st ⟨ov, dp, sp, rx⟩ = loopCycle st ⟨ov, dp, sp, rx2⟩) := by
  exact ⟨fun s d => ⟨rfl, by decide⟩, fun st ov dp sp rx rx2 => rfl⟩

/-- Claim C7 (counterexample): a concrete two-cycle trace in which the remote
is on and cycle 0's received bytes are a correctly-checksummed SPM General
Information packet carrying the "power down now" flag (the modelled decoder
accepts it, and the flag recogniser sees the flag), yet the remote's next
general packet (cycle 1) still has the power-down/sleep confirm bit (bit 0 of
packet byte 6) clear.  This refutes "upon observing that flag, the remote
sets the confirm flag in its own next general packet". -/
theorem confirm_not_set_after_power_down_now :
    spmPowerDownNowFlag spmPowerDownPacketExample = true ∧
    decode (spmPowerDownPacketExample.take 9)
      = DecodeResult.ok 1 [0, 16, 0, 0, 0, 0, 0] ∧
    (runRemote false
        [⟨2000, 1500, 1500, spmPowerDownPacketExample⟩, ⟨2000, 1500, 1500, []⟩]).get? 1
      = some (sharkOnModePacket 512 512) ∧
    (sharkOnModePacket 512 512).get? 6 = some 132 ∧ (132 : Nat).testBit 0 = false := by
  exact ⟨by decide, by decide, by decide, rfl, by decide⟩

/-- Claim C4 (amended): decoding the byte sequence produced by the modelled
`encode` yields back exactly the original type and data, for every type in
`0..15` and every data sequence of 1 to 8 bytes of 7-bit values (the bus
carries 7 information bits per byte), excluding only the single colliding
case of type 15 with exactly one data byte, whose start byte equals the
TransmitFinished sentinel `0x0F`. -/
theorem encode_decode_roundtrip (ty : Nat) (dat : List Nat)
    (hty : ty ≤ 15) (hn1 : 1 ≤ dat.length) (hn8 : dat.length ≤ 8)
    (hbytes : ∀ b ∈ dat, b ≤ 127) (hexcl : ¬ (ty = 15 ∧ dat.length = 1)) :
    decode ((encode ty dat).getD []) = DecodeResult.ok ty dat := by
  have hty16 : ty &&& 15 = ty := by rw [and15_eq_mod]; omega
  simp only [encode, if_pos (show 1 ≤ dat.length ∧ dat.length ≤ 8 from ⟨hn1, hn8⟩),
    Option.getD_some, hty16]
  obtain ⟨f1, f2, f3, f4⟩ := start_byte_facts (dat.length - 1) (by omega) ty (by omega)
  set S := ((dat.length - 1) <<< 4) ||| ty with hS
  set W := dat.map (fun b => 128 ||| (b &&& 127)) with hW0
  have hWlen : W.length = dat.length := by rw [hW0, List.length_map]
  set C := 128 ||| (127 - ((S + W.sum) % 128)) with hC
  have hne : S ≠ 15 := by
    intro h15
    rcases f4.mp h15 with ⟨hL, hT⟩
    exact hexcl ⟨hT, by omega⟩
  have hb7 : ¬ (S.testBit 7 = true) := by rw [f3]; simp
  refine (decode_cons S (W ++ [C])).trans ?_
  rw [if_neg hne, if_neg hb7, f2]
  have hlen : (W ++ [C]).length = dat.length + 1 := by
    rw [List.length_append, hWlen]
    rfl
  rw [if_neg (by rw [hlen]; omega)]
  have hidx : dat.length - 1 + 1 = W.length := by omega
  rw [hidx, take_append_single, getElem_append_single, Option.getD_some]
  have hv : 127 - ((S + W.sum) % 128) < 128 := by omega
  rw [if_pos (by rw [hC]; exact chk_unmask _ hv), f1]
  have hmap : W.map (fun b => b &&& 127) = dat := by
    rw [hW0, List.map_map]
    have hcong : dat.map ((fun b => b &&& 127) ∘ fun b => 128 ||| (b &&& 127))
        = dat.map id :=
      List.map_congr_left (fun b hb => wire_byte_unmask b (hbytes b hb))
    rw [hcong, List.map_id]
  rw [hmap]

/-- Witness for C4's amended theorem at type 0, data `[1, 2]`. -/
theorem encode_decode_roundtrip_witness :
    decode ((encode 0 [1, 2]).getD []) = DecodeResult.ok 0 [1, 2] :=
  encode_decode_roundtrip 0 [1, 2] (by decide) (by decide) (by decide) (by decide) (by decide)

/-- Claim C4 (counterexample): for type 15 with one data byte the encoded
start byte is `0x0F` — the TransmitFinished sentinel, which Decode recognises
before attempting generic decode — so `Decode(Encode(15, [0]))` is the
TransmitFinished marker, not the packet `(15, [0])`. -/
theorem roundtrip_fails_type15_len1 :
    encode 15 [0] = some [15, 128, 240] ∧
    decode ((encode 15 [0]).getD []) = DecodeResult.transmitFinished ∧
    DecodeResult.transmitFinished ≠ DecodeResult.ok 15 [0] := by
  exact ⟨by decide, by decide, by decide⟩

end Shark
